import Mathlib

/-!
Verification development for the sensor catalog and selection engine of the
schneider-E repository (a Next.js sensor-selection application).

The embedding below translates, function by function, the data access layer
(`lib/sensors.ts`) and the page-level session logic (`app/page.tsx`,
`components/sensors/ActionBar.tsx`) into executable Lean definitions:

* strings are Lean `String`s, character classes of the JavaScript regexes are
  the corresponding ASCII predicates on `Char`;
* the module-level `sensorCache` (a JS `Map`) and the instrumented count of
  underlying source invocations form an explicit state `DalState` threaded
  through the data-access functions;
* the dynamic `import()` of a location's JSON file is a parameter
  `src : String → Option (List Sensor)`: `some` models a resolved import,
  `none` a rejected one (missing/corrupt file);
* a JS `Set` of strings is an insertion-ordered duplicate-free `List String`
  (`Array.from` of the set is the list itself).
-/

namespace SchneiderE

/-- Sensor record; the eight string fields of the sensor schema
(types/sensors.ts, README schema reference). -/
structure Sensor where
  sensorId : String
  deviceType : String
  deviceId : String
  deviceLabel : String
  ipAddress : String
  sensorLabel : String
  sensorType : String
  sensorUnit : String
deriving DecidableEq

/-- Location record built by `getLocations` (lib/sensors.ts). -/
structure Location where
  id : String
  name : String
  sensorCount : Nat
deriving DecidableEq

/-!
`formatLocationName` (lib/sensors.ts lines 35-43) is a chain of three global
regex replacements:
1. `.replace(/([a-z])([A-Z])/g, "$1 $2")` — insert a space between a lowercase
   letter and an immediately following uppercase letter;
2. `.replace(/_/g, " ")` — replace underscores by spaces;
3. `.replace(/\b\w/g, c => c.toUpperCase())` — uppercase every word character
   that starts a word (is preceded by a non-word character or the start).
-/

/-- Pass 1 of `formatLocationName`: the global replacement
`([a-z])([A-Z]) → $1 $2`.  A global regex consumes each match, so after
matching a pair the scan resumes after the uppercase letter. -/
def insertCaseSpaces : List Char → List Char
  | [] => []
  | [a] => [a]
  | a :: b :: rest =>
    if a.isLower && b.isUpper then
      a :: ' ' :: b :: insertCaseSpaces rest
    else
      a :: insertCaseSpaces (b :: rest)

/-- Pass 2 of `formatLocationName`: the global replacement `_ → " "`. -/
def underscoreToSpace (c : Char) : Char :=
  if c = '_' then ' ' else c

/-- The JavaScript regex word-character class `\w` = `[A-Za-z0-9_]`. -/
def isWordChar (c : Char) : Bool :=
  c.isAlphanum || c = '_'

/-- Pass 3 of `formatLocationName`: uppercase every `\b\w` match.  The flag
records whether the previous character was a word character (no previous
character counts as a non-word character). -/
def capWordStarts : Bool → List Char → List Char
  | _, [] => []
  | prevWord, c :: rest =>
    (if isWordChar c && !prevWord then c.toUpper else c) :: capWordStarts (isWordChar c) rest

/-- `formatLocationName` (lib/sensors.ts lines 35-43): converts a filename/ID
to a display name via the three regex passes above. -/
def formatLocationName (id : String) : String :=
  ⟨capWordStarts false ((insertCaseSpaces id.data).map underscoreToSpace)⟩

/-- `getLocationName` (lib/sensors.ts lines 133-135). -/
def getLocationName (locationId : String) : String :=
  formatLocationName locationId

/-- `LOCATION_FILES` (lib/sensors.ts line 56): the statically registered data
files; the filename is the location id. -/
def LOCATION_FILES : List String := ["SanDiego"]

/-- State of the data access layer: the module-level `sensorCache`
(lib/sensors.ts line 62, a JS `Map` from location id to sensor list, modelled
as an insertion-ordered association list) together with `loads`, the log of
underlying source invocations (the call-count instrumentation the spec asks
for when verifying cache behaviour; each dynamic `import()` appends the
requested location id). -/
structure DalState where
  sensorCache : List (String × List Sensor)
  loads : List String
deriving DecidableEq

/-- `Map.get`/`Map.has` on the cache: the value stored at the given key. -/
def cacheLookup (cache : List (String × List Sensor)) (k : String) : Option (List Sensor) :=
  match cache with
  | [] => none
  | e :: rest => if e.1 = k then some e.2 else cacheLookup rest k

/-- `Map.set` on the cache: overwrite the entry at the key if present
(keeping its position, as a JS `Map` does), otherwise append. -/
def cacheSet (cache : List (String × List Sensor)) (k : String) (v : List Sensor) :
    List (String × List Sensor) :=
  match cache with
  | [] => [(k, v)]
  | e :: rest => if e.1 = k then (k, v) :: rest else e :: cacheSet rest k v

/-- Synchronous section of `getSensorsByLocation` after the simulated delay
(lib/sensors.ts lines 110-113): the cache check.  `some` means a cache hit
with the cached list. -/
def getSensorsCheckPhase (s : DalState) (locationId : String) : Option (List Sensor) :=
  cacheLookup s.sensorCache locationId

/-- Load section of `getSensorsByLocation` (lib/sensors.ts lines 115-127):
the dynamic `import` of the location's JSON file.  On success the list is
cached and returned; on failure (`catch`) the error is logged and the empty
array is returned, with the cache left untouched.  Either way the underlying
source was invoked once, recorded in `loads`. -/
def getSensorsLoadPhase (src : String → Option (List Sensor)) (locationId : String)
    (s : DalState) : List Sensor × DalState :=
  match src locationId with
  | some sensors =>
    (sensors, ⟨cacheSet s.sensorCache locationId sensors, s.loads ++ [locationId]⟩)
  | none =>
    ([], ⟨s.sensorCache, s.loads ++ [locationId]⟩)

/-- `getSensorsByLocation` (lib/sensors.ts lines 105-128): check the cache
first, otherwise load from the source.  The simulated network delay only
affects timing and is not modelled. -/
def getSensorsByLocation (src : String → Option (List Sensor)) (locationId : String)
    (s : DalState) : List Sensor × DalState :=
  match getSensorsCheckPhase s locationId with
  | some sensors => (sensors, s)
  | none => getSensorsLoadPhase src locationId s

/-- Two overlapping `getSensorsByLocation` calls for the same id, under the
schedule in which both synchronous cache checks run before either dynamic
load resolves (each call suspends on the awaited network delay before its
check and on the awaited dynamic load afterwards, so this interleaving is
realizable).  Each call is exactly its check phase followed, on a miss, by
its load phase; the second call's load runs on the state the first load
produced. -/
def twoConcurrentGetSensors (src : String → Option (List Sensor)) (locationId : String)
    (s : DalState) : (List Sensor × List Sensor) × DalState :=
  match getSensorsCheckPhase s locationId, getSensorsCheckPhase s locationId with
  | some vA, some vB => ((vA, vB), s)
  | some vA, none =>
    ((vA, (getSensorsLoadPhase src locationId s).1), (getSensorsLoadPhase src locationId s).2)
  | none, some vB =>
    (((getSensorsLoadPhase src locationId s).1, vB), (getSensorsLoadPhase src locationId s).2)
  | none, none =>
    (((getSensorsLoadPhase src locationId s).1,
      (getSensorsLoadPhase src locationId (getSensorsLoadPhase src locationId s).2).1),
     (getSensorsLoadPhase src locationId (getSensorsLoadPhase src locationId s).2).2)

/-- The `for` loop of `getLocations` (lib/sensors.ts lines 75-93): for each
registered file, try the dynamic import; on success push a location record
(id, formatted name, sensor count) and cache the data; on failure log and
continue with the remaining files. -/
def getLocationsLoop (src : String → Option (List Sensor)) :
    List String → DalState → List Location × DalState
  | [], s => ([], s)
  | fileId :: rest, s =>
    match src fileId with
    | some sensors =>
      ((⟨fileId, formatLocationName fileId, sensors.length⟩ : Location) ::
         (getLocationsLoop src rest ⟨cacheSet s.sensorCache fileId sensors, s.loads ++ [fileId]⟩).1,
       (getLocationsLoop src rest ⟨cacheSet s.sensorCache fileId sensors, s.loads ++ [fileId]⟩).2)
    | none =>
      getLocationsLoop src rest ⟨s.sensorCache, s.loads ++ [fileId]⟩

/-- `getLocations` (lib/sensors.ts lines 70-96): iterate over
`LOCATION_FILES`, returning the successfully loaded locations and caching
their sensor lists as a side effect. -/
def getLocations (src : String → Option (List Sensor)) (s : DalState) :
    List Location × DalState :=
  getLocationsLoop src LOCATION_FILES s

/-!
Session state of `SensorSelectionPage` (app/page.tsx).  The selection is the
JS `Set` `selectedSensorIds`, modelled as an insertion-ordered duplicate-free
list of sensor ids (`Array.from` of the set enumerates insertion order).
-/

/-- The page-level React state of `SensorSelectionPage` that the claims are
about (app/page.tsx lines 26-37). -/
structure SessionState where
  locations : List Location
  selectedLocationId : Option String
  sensors : List Sensor
  selectedSensorIds : List String
deriving DecidableEq

/-- `handleToggleSensor` (app/page.tsx lines 135-145) acting on the
selection set: copy, then delete the id if present, else add it.  A JS
`Set.add` appends in insertion order; `delete` removes the sole occurrence. -/
def handleToggleSensor (sel : List String) (sensorId : String) : List String :=
  if sensorId ∈ sel then sel.erase sensorId else sel ++ [sensorId]

/-- `new Set(xs)` for an array `xs`: insert the elements left to right,
keeping the first occurrence of each duplicate. -/
def jsSetOfList (xs : List String) : List String :=
  xs.foldl (fun acc x => if x ∈ acc then acc else acc ++ [x]) []

/-- `handleSelectAll` (app/page.tsx lines 147-151): the selection becomes
`new Set(currentSensors.map(s => s.sensorId))`. -/
def handleSelectAll (s : SessionState) : SessionState :=
  { s with selectedSensorIds := jsSetOfList (s.sensors.map (fun x => x.sensorId)) }

/-- `handleDeselectAll` (app/page.tsx lines 153-155): the selection becomes
the empty set. -/
def handleDeselectAll (s : SessionState) : SessionState :=
  { s with selectedSensorIds := [] }

/-- The confirmed-selection output of `handleConfirm` (app/page.tsx lines
157-173): the location id, `Array.from(currentSelectedIds)` (the set in
insertion order), and the logged count `selectedIds.length`. -/
structure ConfirmPayload where
  locationId : Option String
  sensorIds : List String
  count : Nat
deriving DecidableEq

/-- `handleConfirm` (app/page.tsx lines 157-173): reads the current refs and
emits the payload unconditionally — there is no state or emptiness check. -/
def handleConfirm (s : SessionState) : ConfirmPayload :=
  ⟨s.selectedLocationId, s.selectedSensorIds, s.selectedSensorIds.length⟩

/-- Completion of the `fetchSensors` effect for a non-null location
(app/page.tsx lines 104-118): when the data arrives (and the effect was not
cleaned up), `setSensors(data)` and `setSelectedSensorIds(new Set())` are
applied together in the same React update. -/
def fetchSensorsSuccess (s : SessionState) (data : List Sensor) : SessionState :=
  { s with sensors := data, selectedSensorIds := [] }

/-- The `!selectedLocationId` branch of the same effect (app/page.tsx lines
95-99): clearing the location empties both the catalogue and the
selection. -/
def clearOnNoLocation (s : SessionState) : SessionState :=
  { s with sensors := [], selectedSensorIds := [] }

/-- The `disabled` condition of the confirm button in `ActionBarComponent`
(components/sensors/ActionBar.tsx lines 36 and 87):
`hasSelection = selectedCount > 0`, `disabled = !hasSelection || isLoading`. -/
def actionBarConfirmDisabled (selectedCount : Nat) (isLoading : Bool) : Bool :=
  !(decide (selectedCount > 0)) || isLoading

/-- Spec-side definition (Confirm submission contract, spec §6): the selected
ids ordered ascending by catalogue-insertion order of the underlying sensor
list.  Used to compare the code's payload order against the spec's. -/
def catalogueOrderedSelection (sensors : List Sensor) (sel : List String) : List String :=
  (sensors.map (fun x => x.sensorId)).filter (fun id => decide (id ∈ sel))

/-!
Verification-side predicates on character lists, and concrete fixtures used
by witnesses and counterexamples.
-/

/-- No lowercase letter is immediately followed by an uppercase letter,
i.e. the string has no remaining match of pass 1's regex. -/
def noLU : List Char → Bool
  | a :: b :: rest => (!(a.isLower && b.isUpper)) && noLU (b :: rest)
  | _ => true

/-- The string contains no underscore, i.e. no remaining match of pass 2's
regex. -/
def noUnd (l : List Char) : Bool :=
  l.all (fun c => decide (c ≠ '_'))

/-- A sensor whose identifying field is the given id (the remaining fields
are opaque to the engine). -/
def mkSensor (id : String) : Sensor := ⟨id, "", "", "", "", "", "", ""⟩

/-- The catalogue `["A", "B", "C"]` of the spec's scenarios. -/
def sensorsABC : List Sensor := [mkSensor "A", mkSensor "B", mkSensor "C"]

/-- A source with one registered location file, as in the repository's data
directory. -/
def srcTest : String → Option (List Sensor) :=
  fun loc => if loc = "SanDiego" then some [mkSensor "S1"] else none

/-- A source whose every import rejects (missing/corrupt file). -/
def failSrc : String → Option (List Sensor) := fun _ => none

/-- A source whose every import resolves with an empty catalogue. -/
def emptySrc : String → Option (List Sensor) := fun _ => some []

/-- The selection obtained by toggling "C" and then "A" into an empty
selection (the spec's confirm-ordering scenario). -/
def toggledCA : List String := handleToggleSensor (handleToggleSensor [] "C") "A"

/-- Ready state for location "L1" with catalogue `["A","B","C"]` and the
selection toggled as C then A. -/
def stateCA : SessionState := ⟨[], some "L1", sensorsABC, toggledCA⟩

/-- Ready state for location "L1" with catalogue `["A","B","C"]` and an
empty selection. -/
def emptySelState : SessionState := ⟨[], some "L1", sensorsABC, []⟩

/-!
Character-level lemmas about the ASCII classes and case conversion used by
the three regex passes.
-/

theorem uint32_le_iff_toNat_le (a b : UInt32) : a ≤ b ↔ a.toNat ≤ b.toNat := Iff.rfl

theorem char_isLower_iff (c : Char) : c.isLower = true ↔ 97 ≤ c.toNat ∧ c.toNat ≤ 122 := by
  simp [Char.isLower, Bool.and_eq_true, decide_eq_true_eq, ge_iff_le,
    uint32_le_iff_toNat_le, Char.toNat, UInt32.size]

theorem char_isUpper_iff (c : Char) : c.isUpper = true ↔ 65 ≤ c.toNat ∧ c.toNat ≤ 90 := by
  simp [Char.isUpper, Bool.and_eq_true, decide_eq_true_eq, ge_iff_le,
    uint32_le_iff_toNat_le, Char.toNat, UInt32.size]

theorem char_toNat_ofNat_small (n : Nat) (h : n < 55296) : (Char.ofNat n).toNat = n := by
  have hv : Nat.isValidChar n := Or.inl h
  rw [Char.ofNat, dif_pos hv]
  rfl

theorem char_toUpper_of_isLower {c : Char} (h : c.isLower = true) :
    c.toUpper = Char.ofNat (c.toNat - 32) := by
  obtain ⟨h1, h2⟩ := (char_isLower_iff c).mp h
  rw [Char.toUpper]
  simp only [ge_iff_le]
  rw [if_pos ⟨h1, h2⟩]

theorem char_toNat_toUpper_of_isLower {c : Char} (h : c.isLower = true) :
    c.toUpper.toNat = c.toNat - 32 := by
  obtain ⟨h1, h2⟩ := (char_isLower_iff c).mp h
  rw [char_toUpper_of_isLower h, char_toNat_ofNat_small]
  omega

theorem char_isUpper_toUpper_of_isLower {c : Char} (h : c.isLower = true) :
    c.toUpper.isUpper = true := by
  obtain ⟨h1, h2⟩ := (char_isLower_iff c).mp h
  rw [char_isUpper_iff, char_toNat_toUpper_of_isLower h]
  omega

theorem char_toUpper_of_not_isLower {c : Char} (h : c.isLower = false) : c.toUpper = c := by
  rw [Char.toUpper]
  simp only [ge_iff_le]
  rw [if_neg]
  intro hc
  rw [(char_isLower_iff c).mpr hc] at h
  exact Bool.true_eq_false.mp h

theorem char_isLower_eq_false_of_isUpper {c : Char} (h : c.isUpper = true) :
    c.isLower = false := by
  obtain ⟨h1, h2⟩ := (char_isUpper_iff c).mp h
  cases hl : c.isLower with
  | false => rfl
  | true =>
    obtain ⟨h3, _⟩ := (char_isLower_iff c).mp hl
    omega

theorem char_isLower_toUpper (c : Char) : c.toUpper.isLower = false := by
  cases hl : c.isLower with
  | false => rw [char_toUpper_of_not_isLower hl]; exact hl
  | true => exact char_isLower_eq_false_of_isUpper (char_isUpper_toUpper_of_isLower hl)

theorem char_toUpper_idem (c : Char) : c.toUpper.toUpper = c.toUpper :=
  char_toUpper_of_not_isLower (char_isLower_toUpper c)

theorem isWordChar_toUpper (c : Char) : isWordChar c.toUpper = isWordChar c := by
  cases hl : c.isLower with
  | false => rw [char_toUpper_of_not_isLower hl]
  | true =>
    have hu := char_isUpper_toUpper_of_isLower hl
    simp [isWordChar, Char.isAlphanum, Char.isAlpha, hu, hl]

theorem char_toUpper_ne_underscore {c : Char} (h : c ≠ '_') : c.toUpper ≠ '_' := by
  cases hl : c.isLower with
  | false => rw [char_toUpper_of_not_isLower hl]; exact h
  | true =>
    intro he
    have hu := char_isUpper_toUpper_of_isLower hl
    rw [he] at hu
    exact absurd hu (by decide)

theorem isWordChar_of_isLower {c : Char} (h : c.isLower = true) : isWordChar c = true := by
  simp [isWordChar, Char.isAlphanum, Char.isAlpha, h]

theorem u2s_isLower {c : Char} (h : (underscoreToSpace c).isLower = true) :
    c.isLower = true := by
  unfold underscoreToSpace at h
  split at h
  · exact absurd h (by decide)
  · exact h

theorem u2s_isUpper {c : Char} (h : (underscoreToSpace c).isUpper = true) :
    c.isUpper = true := by
  unfold underscoreToSpace at h
  split at h
  · exact absurd h (by decide)
  · exact h

theorem u2s_ne_underscore (c : Char) : underscoreToSpace c ≠ '_' := by
  unfold underscoreToSpace
  split
  · decide
  · assumption

/-!
Lemmas about the three passes of `formatLocationName`, leading to its
idempotence.
-/

theorem insertCaseSpaces_cons_eq (a : Char) (r : List Char) :
    ∃ t, insertCaseSpaces (a :: r) = a :: t := by
  cases r with
  | nil => exact ⟨[], rfl⟩
  | cons b rest =>
    by_cases h : (a.isLower && b.isUpper) = true
    · exact ⟨' ' :: b :: insertCaseSpaces rest, by rw [insertCaseSpaces, if_pos h]⟩
    · exact ⟨insertCaseSpaces (b :: rest), by rw [insertCaseSpaces, if_neg h]⟩

theorem noLU_insertCaseSpaces (l : List Char) : noLU (insertCaseSpaces l) = true := by
  induction l using insertCaseSpaces.induct with
  | case1 => rfl
  | case2 a => rfl
  | case3 a b rest h ih =>
    rw [insertCaseSpaces, if_pos h]
    have hbu : b.isUpper = true := (Bool.and_eq_true _ _).mp h |>.2
    have hbl : b.isLower = false := char_isLower_eq_false_of_isUpper hbu
    cases hr : insertCaseSpaces rest with
    | nil => simp [noLU]
    | cons c t =>
      rw [hr] at ih
      simp [noLU, hbl, ih]
  | case4 a b rest h ih =>
    rw [insertCaseSpaces, if_neg h]
    obtain ⟨t, ht⟩ := insertCaseSpaces_cons_eq b rest
    rw [ht] at ih ⊢
    simp only [noLU, Bool.and_eq_true, Bool.not_eq_true']
    exact ⟨Bool.not_eq_true _ ▸ (by simpa using h), ih⟩

theorem insertCaseSpaces_of_noLU (l : List Char) (h : noLU l = true) :
    insertCaseSpaces l = l := by
  induction l with
  | nil => rfl
  | cons a l ih =>
    cases l with
    | nil => rfl
    | cons b rest =>
      rw [noLU, Bool.and_eq_true, Bool.not_eq_true'] at h
      rw [insertCaseSpaces, if_neg (by rw [h.1]; exact Bool.false_ne_true)]
      rw [ih h.2]

theorem noLU_map_u2s (l : List Char) (h : noLU l = true) :
    noLU (l.map underscoreToSpace) = true := by
  induction l with
  | nil => rfl
  | cons a l ih =>
    cases l with
    | nil => rfl
    | cons b rest =>
      rw [noLU, Bool.and_eq_true, Bool.not_eq_true'] at h
      rw [List.map_cons, List.map_cons, noLU, Bool.and_eq_true, Bool.not_eq_true']
      constructor
      · cases hla : (underscoreToSpace a).isLower with
        | false => rfl
        | true =>
          cases hub : (underscoreToSpace b).isUpper with
          | false => rfl
          | true =>
            rw [u2s_isLower hla, u2s_isUpper hub] at h
            exact absurd h.1 (by decide)
      · exact List.map_cons underscoreToSpace b rest ▸ ih h.2

theorem noUnd_map_u2s (l : List Char) : noUnd (l.map underscoreToSpace) = true := by
  induction l with
  | nil => rfl
  | cons a l ih =>
    rw [List.map_cons, noUnd, List.all_cons, Bool.and_eq_true]
    exact ⟨decide_eq_true (u2s_ne_underscore a), ih⟩

theorem map_u2s_of_noUnd (l : List Char) (h : noUnd l = true) :
    l.map underscoreToSpace = l := by
  induction l with
  | nil => rfl
  | cons a l ih =>
    rw [noUnd, List.all_cons, Bool.and_eq_true] at h
    rw [List.map_cons, ih h.2, underscoreToSpace, if_neg (of_decide_eq_true h.1)]

theorem noUnd_capWordStarts (flag : Bool) (l : List Char) (h : noUnd l = true) :
    noUnd (capWordStarts flag l) = true := by
  induction l generalizing flag with
  | nil => rfl
  | cons c l ih =>
    rw [noUnd, List.all_cons, Bool.and_eq_true] at h
    rw [capWordStarts, noUnd, List.all_cons, Bool.and_eq_true]
    refine ⟨?_, ih (isWordChar c) h.2⟩
    split
    · exact decide_eq_true (char_toUpper_ne_underscore (of_decide_eq_true h.1))
    · exact h.1

theorem isWordChar_capChar (flag : Bool) (c : Char) :
    isWordChar (if isWordChar c && !flag then c.toUpper else c) = isWordChar c := by
  split
  · exact isWordChar_toUpper c
  · rfl

theorem capWordStarts_idem (flag : Bool) (l : List Char) :
    capWordStarts flag (capWordStarts flag l) = capWordStarts flag l := by
  induction l generalizing flag with
  | nil => rfl
  | cons c l ih =>
    rw [capWordStarts, capWordStarts, isWordChar_capChar, ih (isWordChar c)]
    congr 1
    by_cases h : (isWordChar c && !flag) = true
    · rw [if_pos h, if_pos h, char_toUpper_idem]
    · rw [if_neg h, if_neg h]

theorem noLU_capWordStarts (flag : Bool) (l : List Char) (h : noLU l = true) :
    noLU (capWordStarts flag l) = true := by
  induction l generalizing flag with
  | nil => rfl
  | cons a l ih =>
    cases l with
    | nil => rw [capWordStarts, capWordStarts]; rfl
    | cons b rest =>
      rw [noLU, Bool.and_eq_true, Bool.not_eq_true'] at h
      rw [capWordStarts, capWordStarts, noLU, Bool.and_eq_true, Bool.not_eq_true']
      constructor
      · by_cases hc : (isWordChar a && !flag) = true
        · rw [if_pos hc, char_isLower_toUpper, Bool.false_and]
        · rw [if_neg hc]
          cases hla : a.isLower with
          | false => rw [Bool.false_and]
          | true =>
            have hwa : isWordChar a = true := isWordChar_of_isLower hla
            have hbu : b.isUpper = false := by
              have h1 := h.1
              rw [hla, Bool.true_and] at h1
              exact h1
            rw [hwa]
            simp [hbu]
      · have h2 := ih (isWordChar a) h.2
        rw [capWordStarts] at h2
        exact h2

theorem capWordStarts_pipeline_idem (l : List Char)
    (h1 : noLU l = true) (h2 : noUnd l = true) (h3 : ∃ t, l = capWordStarts false t) :
    capWordStarts false ((insertCaseSpaces l).map underscoreToSpace) = l := by
  obtain ⟨t, ht⟩ := h3
  rw [insertCaseSpaces_of_noLU l h1, map_u2s_of_noUnd l h2, ht, capWordStarts_idem]

theorem formatLocationName_idem (s : String) :
    formatLocationName (formatLocationName s) = formatLocationName s := by
  show (⟨capWordStarts false ((insertCaseSpaces
      (capWordStarts false ((insertCaseSpaces s.data).map underscoreToSpace) : List Char)).map
        underscoreToSpace)⟩ : String) = _
  congr 1
  apply capWordStarts_pipeline_idem
  · exact noLU_capWordStarts false _ (noLU_map_u2s _ (noLU_insertCaseSpaces s.data))
  · exact noUnd_capWordStarts false _ (noUnd_map_u2s _)
  · exact ⟨(insertCaseSpaces s.data).map underscoreToSpace, rfl⟩

/-!
Lemmas about the data access layer's cache.
-/

theorem cacheLookup_cacheSet (cache : List (String × List Sensor)) (k id : String)
    (v : List Sensor) :
    cacheLookup (cacheSet cache k v) id = if id = k then some v else cacheLookup cache id := by
  induction cache with
  | nil =>
    simp only [cacheSet, cacheLookup]
    by_cases h : id = k
    · rw [if_pos h.symm, if_pos h]
    · rw [if_neg (fun hx => h hx.symm), if_neg h]
  | cons e rest ih =>
    simp only [cacheSet]
    by_cases he : e.1 = k
    · rw [if_pos he]
      simp only [cacheLookup]
      by_cases h : id = k
      · rw [if_pos h.symm, if_pos h]
      · rw [if_neg (fun hx => h hx.symm), if_neg h, if_neg (fun hx => h (hx.symm.trans he))]
    · rw [if_neg he]
      simp only [cacheLookup, ih]
      by_cases h2 : e.1 = id
      · by_cases h3 : id = k
        · exact absurd (h2.trans h3) he
        · rw [if_pos h2, if_neg h3, if_pos h2]
      · by_cases h3 : id = k
        · rw [if_neg h2, if_pos h3, if_pos h3]
        · rw [if_neg h2, if_neg h3, if_neg h3, if_neg h2]

theorem getSensorsByLocation_of_cached (src : String → Option (List Sensor))
    (locationId : String) (s : DalState) (v : List Sensor)
    (h : cacheLookup s.sensorCache locationId = some v) :
    getSensorsByLocation src locationId s = (v, s) := by
  rw [getSensorsByLocation, getSensorsCheckPhase, h]

theorem getLocationsLoop_preserves (src : String → Option (List Sensor))
    (files : List String) (s : DalState) (id : String) (v : List Sensor)
    (hsrc : src id = some v) (hcache : cacheLookup s.sensorCache id = some v) :
    cacheLookup (getLocationsLoop src files s).2.sensorCache id = some v := by
  induction files generalizing s with
  | nil => exact hcache
  | cons fileId rest ih =>
    rw [getLocationsLoop]
    cases hs : src fileId with
    | some sensors =>
      apply ih
      rw [cacheLookup_cacheSet]
      by_cases h : id = fileId
      · rw [if_pos h]
        rw [h] at hsrc
        exact hs.symm.trans hsrc
      · rw [if_neg h]
        exact hcache
    | none =>
      exact ih ⟨s.sensorCache, s.loads ++ [fileId]⟩ hcache

theorem getLocationsLoop_mem (src : String → Option (List Sensor))
    (files : List String) (s : DalState) (loc : Location)
    (hmem : loc ∈ (getLocationsLoop src files s).1) :
    ∃ v, src loc.id = some v ∧ loc.sensorCount = v.length ∧
      cacheLookup (getLocationsLoop src files s).2.sensorCache loc.id = some v := by
  induction files generalizing s with
  | nil => exact absurd hmem (List.not_mem_nil loc)
  | cons fileId rest ih =>
    rw [getLocationsLoop] at hmem ⊢
    cases hs : src fileId with
    | some sensors =>
      rw [hs] at hmem
      dsimp only at hmem ⊢
      rcases List.mem_cons.mp hmem with heq | htail
      · refine ⟨sensors, ?_, ?_, ?_⟩
        · rw [heq]; exact hs
        · rw [heq]
        · apply getLocationsLoop_preserves
          · rw [heq]; exact hs
          · rw [heq]
            simp only
            rw [cacheLookup_cacheSet, if_pos rfl]
      · exact ih _ htail
    | none =>
      rw [hs] at hmem
      dsimp only at hmem ⊢
      exact ih _ hmem

/-!
Lemmas about the selection set.
-/

theorem jsSetInsert_aux (xs : List String) (acc : List String)
    (hd : ∀ x ∈ xs, x ∉ acc) (hnd : xs.Nodup) :
    xs.foldl (fun acc x => if x ∈ acc then acc else acc ++ [x]) acc = acc ++ xs := by
  induction xs generalizing acc with
  | nil => simp
  | cons x xs ih =>
    rw [List.foldl_cons]
    rw [if_neg (hd x (List.mem_cons_self x xs))]
    rw [List.nodup_cons] at hnd
    rw [ih (acc ++ [x])]
    · simp
    · intro y hy
      rw [List.mem_append, List.mem_singleton]
      rintro (hya | rfl)
      · exact hd y (List.mem_cons_of_mem x hy) hya
      · exact hnd.1 hy
    · exact hnd.2

theorem jsSetOfList_of_nodup (xs : List String) (hnd : xs.Nodup) : jsSetOfList xs = xs := by
  rw [jsSetOfList, jsSetInsert_aux xs [] (fun x _ => List.not_mem_nil x) hnd, List.nil_append]

/-!
Claim theorems.
-/

/-- Claim C1, counterexample: the claim says a toggle of an id outside the
active catalogue's universe fails with an `UnknownSensorId` condition and
leaves the selection unchanged.  In the code, `handleToggleSensor` performs
no universe check: toggling "Z" (not an id of the catalogue
`["A","B","C"]`) on the empty selection succeeds and adds "Z" to the
selection. -/
theorem handleToggleSensor_unknown_id_added :
    handleToggleSensor [] "Z" = ["Z"] ∧
    "Z" ∉ sensorsABC.map (fun x => x.sensorId) ∧
    handleToggleSensor [] "Z" ≠ [] := by
  decide

/-- Claim C1, amended: `handleToggleSensor` flips membership of the given
sensorId unconditionally, with no universe guard and no error condition —
the id is removed if present and appended if absent (so an id outside the
universe is added, not rejected); other ids are untouched and the selection
stays duplicate-free. -/
theorem handleToggleSensor_flips_membership (sel : List String) (hnd : sel.Nodup)
    (sensorId : String) :
    (sensorId ∈ handleToggleSensor sel sensorId ↔ sensorId ∉ sel) ∧
    (∀ x, x ≠ sensorId → (x ∈ handleToggleSensor sel sensorId ↔ x ∈ sel)) ∧
    (handleToggleSensor sel sensorId).Nodup := by
  by_cases h : sensorId ∈ sel
  · rw [handleToggleSensor, if_pos h]
    refine ⟨?_, ?_, hnd.erase sensorId⟩
    · rw [hnd.mem_erase_iff]
      simp [h]
    · intro x hx
      rw [hnd.mem_erase_iff]
      simp [hx]
  · rw [handleToggleSensor, if_neg h]
    refine ⟨?_, ?_, ?_⟩
    · simp [h]
    · intro x hx
      simp [hx]
    · rw [List.nodup_append]
      refine ⟨hnd, List.nodup_singleton sensorId, ?_⟩
      intro a ha hb
      rw [List.mem_singleton] at hb
      subst hb
      exact h ha

/-- Witness for C1's amended theorem at the selection `["A"]` and the
out-of-universe id "Z". -/
theorem handleToggleSensor_flips_membership_witness :
    "Z" ∈ handleToggleSensor ["A"] "Z" ↔ "Z" ∉ (["A"] : List String) :=
  (handleToggleSensor_flips_membership ["A"] (by decide) "Z").1

/-- Claim C2, counterexample: on the catalogue `["A","B","C"]` with "C"
toggled before "A", the code's confirm payload lists `["C","A"]` — the
JS `Set` insertion (toggle) order — while the claimed catalogue-insertion
order is `["A","C"]`. -/
theorem handleConfirm_toggle_order_not_catalogue_order :
    (handleConfirm stateCA).sensorIds = ["C", "A"] ∧
    catalogueOrderedSelection stateCA.sensors stateCA.selectedSensorIds = ["A", "C"] ∧
    (handleConfirm stateCA).sensorIds ≠
      catalogueOrderedSelection stateCA.sensors stateCA.selectedSensorIds := by
  decide

/-- Claim C2, amended: `handleConfirm` produces the payload
`{locationId, sensorIds, count}` where sensorIds is `Array.from` of the
selection set — exactly the members of the selection in the order they were
toggled in (set insertion order), not catalogue order — and the reported
count equals `sensorIds.length`. -/
theorem handleConfirm_payload_insertion_order (s : SessionState) :
    (handleConfirm s).locationId = s.selectedLocationId ∧
    (handleConfirm s).sensorIds = s.selectedSensorIds ∧
    (handleConfirm s).count = (handleConfirm s).sensorIds.length ∧
    ∀ x, x ∈ (handleConfirm s).sensorIds ↔ x ∈ s.selectedSensorIds :=
  ⟨rfl, rfl, rfl, fun _ => Iff.rfl⟩

/-- Claim C3, counterexample: the claim says a failed load makes
`getSensorsByLocation` fail with a `CatalogLoadFailed` condition rather than
return a value.  In the code the `catch` branch returns the empty array: on
an always-failing source the call returns `[]` normally — the same value a
successfully loaded empty catalogue yields — with no error condition. -/
theorem getSensorsByLocation_load_failure_returns_empty :
    getSensorsByLocation failSrc "SanDiego" ⟨[], []⟩ = ([], ⟨[], ["SanDiego"]⟩) ∧
    (getSensorsByLocation failSrc "SanDiego" ⟨[], []⟩).1 =
      (getSensorsByLocation emptySrc "SanDiego" ⟨[], []⟩).1 := by
  decide

/-- Claim C3, amended: on a load failure for an uncached location,
`getSensorsByLocation` returns the empty list (no failure condition is
reported to the caller), the cache remains unpopulated for that key, and a
subsequent call for the same location retries the underlying load (the
source-invocation log grows again). -/
theorem getSensorsByLocation_failure_uncached_retry (src : String → Option (List Sensor))
    (loc : String) (s : DalState) (hmiss : cacheLookup s.sensorCache loc = none)
    (hfail : src loc = none) :
    getSensorsByLocation src loc s = ([], ⟨s.sensorCache, s.loads ++ [loc]⟩) ∧
    getSensorsByLocation src loc ⟨s.sensorCache, s.loads ++ [loc]⟩ =
      ([], ⟨s.sensorCache, s.loads ++ [loc] ++ [loc]⟩) := by
  constructor
  · rw [getSensorsByLocation, getSensorsCheckPhase, hmiss, getSensorsLoadPhase, hfail]
  · rw [getSensorsByLocation, getSensorsCheckPhase, hmiss, getSensorsLoadPhase, hfail]

/-- Witness for C3's amended theorem on the always-failing source. -/
theorem getSensorsByLocation_failure_uncached_retry_witness :
    getSensorsByLocation failSrc "SanDiego" ⟨[], ["SanDiego"]⟩ =
      ([], ⟨[], ["SanDiego"] ++ ["SanDiego"]⟩) :=
  (getSensorsByLocation_failure_uncached_retry failSrc "SanDiego" ⟨[], []⟩ rfl rfl).2

/-- Claim C4: when the active location changes, the selection is cleared
together with the catalogue swap.  In the code's `fetchSensors` effect,
`setSensors(data)` and `setSelectedSensorIds(new Set())` are applied in the
same update, so in the state where the new catalogue is ready the selection
is empty (count 0, hence no identifier from the previous location remains),
for every prior state and every catalogue; the null-location branch clears
the selection as well. -/
theorem location_change_clears_selection (s : SessionState) (data : List Sensor) :
    (fetchSensorsSuccess s data).sensors = data ∧
    (fetchSensorsSuccess s data).selectedSensorIds = [] ∧
    (fetchSensorsSuccess s data).selectedSensorIds.length = 0 ∧
    (clearOnNoLocation s).selectedSensorIds = [] :=
  ⟨rfl, rfl, rfl, rfl⟩

/-- Claim C5, counterexample: the claim says a confirm attempted with an
empty selection fails loudly with an `InvalidStateTransition` condition.  In
the code `handleConfirm` checks nothing: invoked on a Ready state with an
empty selection it emits the ordinary payload with zero sensors — no
failure. -/
theorem handleConfirm_empty_selection_emits_payload :
    handleConfirm emptySelState = ⟨some "L1", [], 0⟩ := by
  decide

/-- Claim C5, amended: `handleConfirm` itself performs no validity check and
never reports a condition — on an empty selection it emits the payload with
an empty id list and count 0; the only guard is in the presentation layer:
`ActionBar` disables the confirm button exactly when the selection count is
0 or loading is in progress. -/
theorem confirm_unchecked_guard_in_actionbar (s : SessionState) (n : Nat) (b : Bool)
    (hempty : s.selectedSensorIds = []) (hpos : 0 < n) :
    handleConfirm s = ⟨s.selectedLocationId, [], 0⟩ ∧
    actionBarConfirmDisabled 0 b = true ∧
    actionBarConfirmDisabled n false = false := by
  refine ⟨?_, ?_, ?_⟩
  · rw [handleConfirm, hempty]
    rfl
  · rw [actionBarConfirmDisabled]
    simp
  · rw [actionBarConfirmDisabled]
    simp [hpos]

/-- Witness for C5's amended theorem at the empty-selection Ready state. -/
theorem confirm_unchecked_guard_in_actionbar_witness :
    handleConfirm emptySelState = ⟨some "L1", [], 0⟩ ∧
    actionBarConfirmDisabled 0 true = true ∧
    actionBarConfirmDisabled 1 false = false :=
  confirm_unchecked_guard_in_actionbar emptySelState 1 true rfl (by decide)

/-- Claim C6, counterexample: the claim says two concurrent cold calls for
the same uncached id coalesce onto a single underlying load.  Under the
realizable schedule in which both cache checks run before either import
resolves (the code populates the cache only after a load completes), the
source is invoked twice, not once. -/
theorem twoConcurrentGetSensors_double_load :
    (twoConcurrentGetSensors srcTest "SanDiego" ⟨[], []⟩).2.loads =
      ["SanDiego", "SanDiego"] ∧
    (twoConcurrentGetSensors srcTest "SanDiego" ⟨[], []⟩).2.loads.length ≠ 1 := by
  decide

/-- Claim C6, amended: two concurrent cold calls for the same uncached id do
not coalesce — each invokes the underlying source once (two invocations in
total) — though both calls resolve with the loaded sensor list. -/
theorem twoConcurrentGetSensors_each_invokes_source (src : String → Option (List Sensor))
    (loc : String) (s : DalState) (v : List Sensor)
    (hmiss : cacheLookup s.sensorCache loc = none) (hsrc : src loc = some v) :
    (twoConcurrentGetSensors src loc s).1 = (v, v) ∧
    (twoConcurrentGetSensors src loc s).2.loads = s.loads ++ [loc, loc] := by
  rw [twoConcurrentGetSensors]
  rw [getSensorsCheckPhase, hmiss]
  dsimp only
  rw [getSensorsLoadPhase, hsrc]
  dsimp only
  rw [getSensorsLoadPhase, hsrc]
  dsimp only
  refine ⟨rfl, ?_⟩
  simp

/-- Witness for C6's amended theorem on the one-location source. -/
theorem twoConcurrentGetSensors_each_invokes_source_witness :
    (twoConcurrentGetSensors srcTest "SanDiego" ⟨[], []⟩).1 =
      ([mkSensor "S1"], [mkSensor "S1"]) :=
  (twoConcurrentGetSensors_each_invokes_source srcTest "SanDiego" ⟨[], []⟩ [mkSensor "S1"]
    rfl (by decide)).1

/-- Claim C7: once a location's catalogue has been successfully loaded into
the cache, a subsequent `getSensorsByLocation` call returns the originally
loaded list and leaves the state unchanged — in particular the
source-invocation log does not grow, so the underlying source is not
re-invoked. -/
theorem getSensorsByLocation_warm_cache (src : String → Option (List Sensor))
    (loc : String) (s : DalState) (v : List Sensor)
    (hmiss : cacheLookup s.sensorCache loc = none) (hsrc : src loc = some v) :
    (getSensorsByLocation src loc s).1 = v ∧
    getSensorsByLocation src loc (getSensorsByLocation src loc s).2 =
      (v, (getSensorsByLocation src loc s).2) := by
  have hfirst : getSensorsByLocation src loc s =
      (v, ⟨cacheSet s.sensorCache loc v, s.loads ++ [loc]⟩) := by
    rw [getSensorsByLocation, getSensorsCheckPhase, hmiss, getSensorsLoadPhase, hsrc]
  rw [hfirst]
  refine ⟨rfl, ?_⟩
  apply getSensorsByLocation_of_cached
  rw [cacheLookup_cacheSet, if_pos rfl]

/-- Witness for C7's theorem on the one-location source. -/
theorem getSensorsByLocation_warm_cache_witness :
    getSensorsByLocation srcTest "SanDiego" (getSensorsByLocation srcTest "SanDiego" ⟨[], []⟩).2 =
      ([mkSensor "S1"], (getSensorsByLocation srcTest "SanDiego" ⟨[], []⟩).2) :=
  (getSensorsByLocation_warm_cache srcTest "SanDiego" ⟨[], []⟩ [mkSensor "S1"]
    rfl (by decide)).2

/-- Claim C8, counterexample: the claim says the name derivation inserts
space boundaries at digit transitions.  The code's first pass only matches a
lowercase letter immediately followed by an uppercase letter, so
"Data1Center" — which has letter-digit and digit-letter transitions — comes
out without any space. -/
theorem formatLocationName_no_space_at_digit_transition :
    formatLocationName "Data1Center" = "Data1Center" ∧
    ("Data1Center".data.all (fun c => decide (c ≠ ' '))) = true := by
  decide

/-- Claim C8, amended: the name derivation is a pure function that inserts a
space at each lowercase-to-uppercase transition and turns underscores into
spaces (digit transitions and other separators are left untouched),
capitalizes each word-initial character, maps "SanDiego" to "San Diego" and
"NewYork" to "New York" (and "san_diego" to "San Diego"), and is idempotent
on every string. -/
theorem formatLocationName_examples_and_idempotent :
    formatLocationName "SanDiego" = "San Diego" ∧
    formatLocationName "NewYork" = "New York" ∧
    formatLocationName "san_diego" = "San Diego" ∧
    ∀ s : String, formatLocationName (formatLocationName s) = formatLocationName s :=
  ⟨by decide, by decide, by decide, formatLocationName_idem⟩

/-- Claim C9: for every state whose catalogue has pairwise-distinct sensor
ids (the catalogue invariant) — of any size, including 0 — and every prior
selection, `handleSelectAll` makes the selection exactly the catalogue's
sensor-id list, so its count equals the catalogue's total, and
`handleDeselectAll` makes the selection empty, so its count is 0. -/
theorem selectAll_deselectAll_counts (s : SessionState)
    (hnd : (s.sensors.map (fun x => x.sensorId)).Nodup) :
    (handleSelectAll s).selectedSensorIds = s.sensors.map (fun x => x.sensorId) ∧
    (handleSelectAll s).selectedSensorIds.length = s.sensors.length ∧
    (handleDeselectAll s).selectedSensorIds.length = 0 := by
  have h1 : (handleSelectAll s).selectedSensorIds = s.sensors.map (fun x => x.sensorId) := by
    rw [handleSelectAll]
    exact jsSetOfList_of_nodup _ hnd
  refine ⟨h1, ?_, rfl⟩
  rw [h1, List.length_map]

/-- Witness for C9's theorem at the catalogue `["A","B","C"]` with a
non-empty prior selection. -/
theorem selectAll_deselectAll_counts_witness :
    (handleSelectAll stateCA).selectedSensorIds.length = stateCA.sensors.length ∧
    (handleDeselectAll stateCA).selectedSensorIds.length = 0 :=
  ⟨(selectAll_deselectAll_counts stateCA (by decide)).2.1,
   (selectAll_deselectAll_counts stateCA (by decide)).2.2⟩

/-- Claim C10: after `getLocations`, every location in the returned array
has its full sensor list in the cache (the list the source provided, whose
length is the reported sensorCount), and a subsequent `getSensorsByLocation`
for that id is served from the cache with the state unchanged — so the
underlying source is not invoked again. -/
theorem getLocations_populates_cache (src : String → Option (List Sensor))
    (s : DalState) (loc : Location) (hmem : loc ∈ (getLocations src s).1) :
    ∃ v, src loc.id = some v ∧ loc.sensorCount = v.length ∧
      cacheLookup (getLocations src s).2.sensorCache loc.id = some v ∧
      getSensorsByLocation src loc.id (getLocations src s).2 = (v, (getLocations src s).2) := by
  obtain ⟨v, hsrc, hcount, hcache⟩ := getLocationsLoop_mem src LOCATION_FILES s loc hmem
  exact ⟨v, hsrc, hcount, hcache, getSensorsByLocation_of_cached src loc.id _ v hcache⟩

/-- Witness for C10's theorem on the one-location source. -/
theorem getLocations_populates_cache_witness :
    ∃ v, srcTest "SanDiego" = some v ∧
      (⟨"SanDiego", "San Diego", 1⟩ : Location).sensorCount = v.length ∧
      cacheLookup (getLocations srcTest ⟨[], []⟩).2.sensorCache "SanDiego" = some v ∧
      getSensorsByLocation srcTest "SanDiego" (getLocations srcTest ⟨[], []⟩).2 =
        (v, (getLocations srcTest ⟨[], []⟩).2) :=
  getLocations_populates_cache srcTest ⟨[], []⟩ ⟨"SanDiego", "San Diego", 1⟩ (by decide)

end SchneiderE
